import Mathlib

/-!
Verification of the batch-assembly, step-loop and callback subsystem of
`trainer.py` (class `Trainer`), via a shallow embedding in Lean.

Modelling choices:
* A raw item `(input_ids, label)` is a pair `List Int × Int` (token-id
  tensors become lists of integers; labels are opaque scalars).
* `collate_fn` returns `Option`: `torch.cat` / `torch.stack` on an empty
  list of tensors raises at runtime, which the embedding renders as `none`.
* The training loop `Trainer.run` is embedded as a fuel-indexed function
  over an abstract stream of per-batch loss values; the statements executed
  inside one iteration of the inner `for` loop are recorded as an ordered
  event trace, so that ordering claims about the step protocol are statable.
-/

namespace Trainer

/-- The raw item type: a variable-length integer sequence and a label. -/
def RawItem : Type := List Int × Int

/-- The `max_len` accumulation of `collate_fn`:
`for (inp, lbl) in batch: max_len = max(max_len, inp.size(0))`, starting
from `max_len = 0`. -/
def observed_max (batch : List (List Int × Int)) : Nat :=
  batch.foldl (fun m p => max m p.1.length) 0

/-- The clamped target length: `max_len = min(max_len, model.block_size)`. -/
def target_len (block_size : Nat) (batch : List (List Int × Int)) : Nat :=
  min (observed_max batch) block_size

/-- The per-item body of the second loop of `collate_fn`:
truncate to `max_len` when longer, otherwise right-pad with zeros
(`torch.cat([inp, torch.zeros(pad_size, dtype=torch.long)])`) when
`pad_size > 0`, else keep the sequence as is. -/
def assemble_row (max_len : Nat) (inp : List Int) : List Int :=
  if inp.length > max_len then
    inp.take max_len
  else
    let pad_size := max_len - inp.length
    if pad_size > 0 then inp ++ List.replicate pad_size 0 else inp

/-- Embedding of `collate_fn` from `Trainer.run`: computes the observed maximum length,
clamps it to `block_size`, pads or truncates every sequence to that length,
and stacks rows and labels.  Stacking an empty list fails (`torch.cat` on
an empty tensor list raises), rendered as `none`. -/
def collate_fn (block_size : Nat) (batch : List (List Int × Int)) :
    Option (List (List Int) × List Int) :=
  let max_len := min (observed_max batch) block_size
  let input_ids_list := batch.map (fun p => assemble_row max_len p.1)
  let labels_list := batch.map Prod.snd
  if input_ids_list.isEmpty then none
  else some (input_ids_list, labels_list)

/-- Labels of the statements executed by one iteration of the inner
`for batch in train_loader` loop of `Trainer.run`, in source order. -/
inductive StepEv : Type
  | pullBatch
  | deviceMove
  | forwardLoss
  | zeroGrad
  | backward
  | clipGradNorm
  | optStep
  | recordLoss
  | fireCallback (ev : String)
  | incrIterNum
  | updateTiming
  | termCheck
deriving DecidableEq, Repr

/-- The loop state mutated by one step: `self.iter_num` and `self.loss`. -/
structure LoopState where
  iter_num : Nat
  loss : Int
deriving DecidableEq, Repr

/-- The loop break condition
`config.max_iters is not None and self.iter_num >= config.max_iters`. -/
def stop_cond (max_iters : Option Nat) (iter_num : Nat) : Bool :=
  match max_iters with
  | some k => decide (iter_num ≥ k)
  | none => false

/-- One iteration of the inner `for` loop of `Trainer.run`, transliterated
statement by statement; returns the updated state, the ordered trace of
executed statements, and whether the `break` fires. -/
def step_body (max_iters : Option Nat) (loss_val : Int) (s : LoopState) :
    LoopState × List StepEv × Bool :=
  -- x, labels = [t.to(self.device) for t in batch]
  -- logits, loss = model(x, labels=labels)
  -- model.zero_grad(set_to_none=True); loss.backward()
  -- torch.nn.utils.clip_grad_norm_(...); self.optimizer.step()
  let tr : List StepEv :=
    [.pullBatch, .deviceMove, .forwardLoss, .zeroGrad, .backward,
     .clipGradNorm, .optStep]
  -- self.loss = loss.item()
  let s := { s with loss := loss_val }
  let tr := tr ++ [.recordLoss]
  -- self.trigger_callbacks('on_batch_end')
  let tr := tr ++ [.fireCallback "on_batch_end"]
  -- self.iter_num += 1
  let s := { s with iter_num := s.iter_num + 1 }
  let tr := tr ++ [.incrIterNum]
  -- tnow = time.time(); self.iter_dt = ...; self.iter_time = tnow
  let tr := tr ++ [.updateTiming]
  -- if config.max_iters is not None and self.iter_num >= config.max_iters: break
  let tr := tr ++ [.termCheck]
  (s, tr, stop_cond max_iters s.iter_num)

/-- One pass of the inner `for batch in train_loader` loop: the pass is
abstracted as the list of per-batch loss values it yields.  Returns the
final state, the concatenated trace, and whether `break` ended the pass. -/
def run_pass (max_iters : Option Nat) :
    List Int → LoopState → LoopState × List StepEv × Bool
  | [], s => (s, [], false)
  | l :: ls, s =>
      let r1 := step_body max_iters l s
      if r1.2.2 then (r1.1, r1.2.1, true)
      else
        let r2 := run_pass max_iters ls r1.1
        (r2.1, r1.2.1 ++ r2.2.1, r2.2.2)

/-- The outer `while True` loop of `Trainer.run`, fuel-indexed (each unit
of fuel allows one full pass over the loader); `none` models running out
of fuel, i.e. the loop not having terminated within `fuel` passes.  After
the inner loop ends, the same break condition is checked again. -/
def run_outer (max_iters : Option Nat) (losses : List Int) :
    Nat → LoopState → Option (LoopState × List StepEv)
  | 0, _ => none
  | fuel + 1, s =>
      let r1 := run_pass max_iters losses s
      if r1.2.2 then some (r1.1, r1.2.1)
      else if stop_cond max_iters r1.1.iter_num then some (r1.1, r1.2.1)
      else
        match run_outer max_iters losses fuel r1.1 with
        | none => none
        | some r2 => some (r2.1, r1.2.1 ++ r2.2)

/-- Embedding of `Trainer.run`: resets `self.iter_num = 0` and enters the loop. -/
def run (max_iters : Option Nat) (losses : List Int) (fuel : Nat) :
    Option (LoopState × List StepEv) :=
  run_outer max_iters losses fuel { iter_num := 0, loss := 0 }

/-- The callback registry `self.callbacks = defaultdict(list)`: a total map
from event name to the ordered handler list, defaulting to `[]`. -/
def Callbacks (H : Type) : Type := String → List H

/-- The empty registry `defaultdict(list)` as created in `Trainer.__init__`. -/
def Callbacks.empty (H : Type) : Callbacks H := fun _ => []

/-- Embedding of `add_callback`: `self.callbacks[onevent].append(callback)`. -/
def add_callback {H : Type} (cbs : Callbacks H) (onevent : String)
    (callback : H) : Callbacks H :=
  fun e => if e = onevent then cbs e ++ [callback] else cbs e

/-- Embedding of `set_callback`: `self.callbacks[onevent] = [callback]`. -/
def set_callback {H : Type} (cbs : Callbacks H) (onevent : String)
    (callback : H) : Callbacks H :=
  fun e => if e = onevent then [callback] else cbs e

/-- Embedding of `trigger_callbacks`: the sequence of handlers invoked, in order
(`for callback in self.callbacks.get(onevent, []): callback(self)`). -/
def trigger_callbacks {H : Type} (cbs : Callbacks H) (onevent : String) :
    List H :=
  cbs onevent

/-- The configuration record stored by `Trainer.__init__` (fields of
`Trainer.get_default_config`; real-valued fields are kept as integers
scaled arbitrarily, since no control flow depends on them). -/
structure TrainerConfig where
  device : String
  num_workers : Int
  max_iters : Option Nat
  batch_size : Int
  learning_rate : Int
  betas : Int × Int
  weight_decay : Int
  grad_norm_clip : Int
deriving DecidableEq, Repr

/-- Modelled from the spec: the error taxonomy names `ConfigurationError`
for invalid option values rejected at construction.  No such class exists
in `trainer.py`; the type is introduced only so that the claim "construction
fails with `ConfigurationError`" is statable against the embedding. -/
inductive ConfigurationError : Type
  | invalidOption
deriving DecidableEq, Repr

/-- The state `Trainer.__init__` leaves behind (the opaque collaborators
`model`, `train_dataset`, `valid_dataset`, `optimizer = None` are elided;
`cuda_available` abstracts `torch.cuda.is_available()`). -/
structure TrainerState where
  config : TrainerConfig
  device : String
  iter_num : Nat
  iter_time : Int
  iter_dt : Int
deriving DecidableEq, Repr

/-- Embedding of `Trainer.__init__`, transliterated: stores the config, resolves the
device (`auto` picks cuda when available else cpu), and zero-initialises
the iteration counters.  The source performs no validation of any
configuration value, so every execution path returns `Except.ok`. -/
def init (config : TrainerConfig) (cuda_available : Bool) :
    Except ConfigurationError TrainerState :=
  let device :=
    if config.device = "auto" then
      (if cuda_available then "cuda" else "cpu")
    else config.device
  Except.ok
    { config := config, device := device,
      iter_num := 0, iter_time := 0, iter_dt := 0 }

end Trainer

namespace Trainer

/-! ## Helper lemmas -/

/-- The accumulator of the `max_len` fold never decreases. -/
lemma init_le_foldl_max (l : List (List Int × Int)) (a : Nat) :
    a ≤ l.foldl (fun m p => max m p.1.length) a := by
  induction l generalizing a with
  | nil => simp
  | cons q qs ih =>
      simp only [List.foldl_cons]
      exact le_trans (le_max_left a q.1.length) (ih (max a q.1.length))

/-- Every member's length is bounded by the `max_len` fold. -/
lemma mem_le_foldl_max (l : List (List Int × Int)) (a : Nat)
    (p : List Int × Int) (hmem : p ∈ l) :
    p.1.length ≤ l.foldl (fun m q => max m q.1.length) a := by
  induction l generalizing a with
  | nil => cases hmem
  | cons q qs ih =>
      simp only [List.foldl_cons]
      rcases List.mem_cons.mp hmem with h | h
      · subst h
        exact le_trans (le_max_right a p.1.length)
          (init_le_foldl_max qs (max a p.1.length))
      · exact ih _ h

/-- The fold `observed_max` bounds every member's length from above. -/
lemma length_le_observed_max {batch : List (List Int × Int)}
    {p : List Int × Int} (hmem : p ∈ batch) :
    p.1.length ≤ observed_max batch :=
  mem_le_foldl_max batch 0 p hmem

/-- Every assembled row has exactly the clamped length, whatever the
input sequence's length. -/
lemma assemble_row_length (m : Nat) (inp : List Int) :
    (assemble_row m inp).length = m := by
  unfold assemble_row
  by_cases h : inp.length > m
  · simp only [h, if_true, List.length_take]
    omega
  · simp only [h, if_false]
    by_cases h2 : m - inp.length > 0
    · simp only [h2, if_true, List.length_append, List.length_replicate]
      omega
    · simp only [h2, if_false]
      omega

/-- Successful collation returns exactly the mapped rows and labels. -/
lemma collate_fn_eq_some {bs : Nat} {batch : List (List Int × Int)}
    {rows : List (List Int)} {labels : List Int}
    (hc : collate_fn bs batch = some (rows, labels)) :
    rows = batch.map (fun p => assemble_row (min (observed_max batch) bs) p.1) ∧
    labels = batch.map Prod.snd := by
  simp only [collate_fn] at hc
  split at hc
  · exact absurd hc (by simp)
  · simp only [Option.some.injEq, Prod.mk.injEq] at hc
    exact ⟨hc.1.symm, hc.2.symm⟩

/-- On a longer-than-target sequence, `assemble_row` truncates. -/
lemma assemble_row_of_gt {m : Nat} {inp : List Int}
    (h : inp.length > m) : assemble_row m inp = inp.take m := by
  unfold assemble_row
  simp only [h, if_true]

/-- On a shorter-than-target sequence, `assemble_row` right-pads with 0. -/
lemma assemble_row_of_lt {m : Nat} {inp : List Int}
    (h : inp.length < m) :
    assemble_row m inp = inp ++ List.replicate (m - inp.length) 0 := by
  unfold assemble_row
  have h1 : ¬ inp.length > m := by omega
  have h2 : m - inp.length > 0 := by omega
  simp only [h1, if_false, h2, if_true]

/-- On a sequence of exactly the target length, `assemble_row` is the
identity. -/
lemma assemble_row_of_eq {m : Nat} {inp : List Int}
    (h : inp.length = m) : assemble_row m inp = inp := by
  unfold assemble_row
  have h1 : ¬ inp.length > m := by omega
  have h2 : ¬ m - inp.length > 0 := by omega
  simp only [h1, if_false, h2, if_true]

/-! ## Claim theorems: batch assembly -/

/-- C1: For every non-empty list of raw items assembled into a batch,
every row of the assembled input tensor has the same length, equal to
`min(maximum raw sequence length in the batch, model block_size)`. -/
theorem collate_rows_uniform_length (block_size : Nat)
    (batch : List (List Int × Int)) (hne : batch ≠ []) :
    ∃ rows labels, collate_fn block_size batch = some (rows, labels) ∧
      ∀ row ∈ rows, row.length = min (observed_max batch) block_size := by
  refine ⟨batch.map (fun p => assemble_row (min (observed_max batch) block_size) p.1),
    batch.map Prod.snd, ?_, ?_⟩
  · simp only [collate_fn]
    split
    · rename_i hemp
      simp only [List.isEmpty_iff, List.map_eq_nil_iff] at hemp
      exact absurd hemp hne
    · rfl
  · intro row hrow
    obtain ⟨p, _, hp⟩ := List.mem_map.mp hrow
    rw [← hp]
    exact assemble_row_length _ _

/-- C1 witness: a concrete two-item batch with `block_size = 3`. -/
theorem collate_rows_uniform_length_witness :
    ([([1, 2], 0), ([1, 2, 3, 4], 1)] : List (List Int × Int)) ≠ [] ∧
    ∃ rows labels,
      collate_fn 3 [([1, 2], 0), ([1, 2, 3, 4], 1)] = some (rows, labels) ∧
      ∀ row ∈ rows,
        row.length = min (observed_max [([1, 2], 0), ([1, 2, 3, 4], 1)]) 3 :=
  ⟨by decide,
   collate_rows_uniform_length 3 [([1, 2], 0), ([1, 2, 3, 4], 1)] (by decide)⟩

/-- C5: For every raw item whose sequence length exceeds `target_len`, the
corresponding assembled row equals exactly the first `target_len` elements
of that sequence (the tail is dropped). -/
theorem collate_truncates (block_size : Nat)
    (batch : List (List Int × Int)) (rows : List (List Int))
    (labels : List Int) (i : Nat) (seq : List Int) (lbl : Int)
    (hc : collate_fn block_size batch = some (rows, labels))
    (hi : batch[i]? = some (seq, lbl))
    (hgt : seq.length > target_len block_size batch) :
    rows[i]? = some (seq.take (target_len block_size batch)) := by
  obtain ⟨hrows, -⟩ := collate_fn_eq_some hc
  subst hrows
  rw [List.getElem?_map, hi]
  exact congrArg some (assemble_row_of_gt hgt)

/-- C5 witness: a batch whose second item (length 4) exceeds the target
length `min(4, 3) = 3`. -/
theorem collate_truncates_witness :
    collate_fn 3 [([1, 2], 0), ([9, 8, 7, 6], 1)] =
      some ([[1, 2, 0], [9, 8, 7]], [0, 1]) ∧
    ([9, 8, 7, 6] : List Int).length >
      target_len 3 [([1, 2], 0), ([9, 8, 7, 6], 1)] ∧
    ([[1, 2, 0], [9, 8, 7]] : List (List Int))[1]? =
      some (([9, 8, 7, 6] : List Int).take
        (target_len 3 [([1, 2], 0), ([9, 8, 7, 6], 1)])) :=
  ⟨by decide, by decide,
   collate_truncates 3 [([1, 2], 0), ([9, 8, 7, 6], 1)]
     [[1, 2, 0], [9, 8, 7]] [0, 1] 1 [9, 8, 7, 6] 1
     (by decide) (by decide) (by decide)⟩

/-- C6: For every raw item whose sequence length is less than
`target_len`, the corresponding assembled row equals the original
sequence followed by `(target_len - length)` pad values equal to 0. -/
theorem collate_pads (block_size : Nat)
    (batch : List (List Int × Int)) (rows : List (List Int))
    (labels : List Int) (i : Nat) (seq : List Int) (lbl : Int)
    (hc : collate_fn block_size batch = some (rows, labels))
    (hi : batch[i]? = some (seq, lbl))
    (hlt : seq.length < target_len block_size batch) :
    rows[i]? =
      some (seq ++
        List.replicate (target_len block_size batch - seq.length) 0) := by
  obtain ⟨hrows, -⟩ := collate_fn_eq_some hc
  subst hrows
  rw [List.getElem?_map, hi]
  exact congrArg some (assemble_row_of_lt hlt)

/-- C6 witness: a batch whose first item (length 2) is shorter than the
target length `min(4, 7) = 4` and gets two zero pads. -/
theorem collate_pads_witness :
    collate_fn 7 [([1, 2], 0), ([9, 8, 7, 6], 1)] =
      some ([[1, 2, 0, 0], [9, 8, 7, 6]], [0, 1]) ∧
    ([1, 2] : List Int).length <
      target_len 7 [([1, 2], 0), ([9, 8, 7, 6], 1)] ∧
    ([[1, 2, 0, 0], [9, 8, 7, 6]] : List (List Int))[0]? =
      some (([1, 2] : List Int) ++
        List.replicate
          (target_len 7 [([1, 2], 0), ([9, 8, 7, 6], 1)] -
            ([1, 2] : List Int).length) 0) :=
  ⟨by decide, by decide,
   collate_pads 7 [([1, 2], 0), ([9, 8, 7, 6], 1)]
     [[1, 2, 0, 0], [9, 8, 7, 6]] [0, 1] 0 [1, 2] 0
     (by decide) (by decide) (by decide)⟩

/-- C7: Assembling an empty item list fails (the empty batch is rejected
rather than producing a `Batch`): stacking an empty list of row tensors
raises, rendered as `none` in the embedding. -/
theorem collate_empty_rejected (block_size : Nat) :
    collate_fn block_size [] = none := rfl

/-- C10: A raw item whose sequence length equals `target_len` is passed
through unchanged, and a single-item batch with length at most
`block_size` assembles to exactly that item's sequence. -/
theorem collate_exact_fit_identity (block_size : Nat) :
    (∀ (batch : List (List Int × Int)) (rows : List (List Int))
        (labels : List Int) (i : Nat) (seq : List Int) (lbl : Int),
      collate_fn block_size batch = some (rows, labels) →
      batch[i]? = some (seq, lbl) →
      seq.length = target_len block_size batch →
      rows[i]? = some seq) ∧
    (∀ (seq : List Int) (lbl : Int), seq.length ≤ block_size →
      collate_fn block_size [(seq, lbl)] = some ([seq], [lbl])) := by
  constructor
  · intro batch rows labels i seq lbl hc hi heq
    obtain ⟨hrows, -⟩ := collate_fn_eq_some hc
    subst hrows
    rw [List.getElem?_map, hi]
    exact congrArg some (assemble_row_of_eq heq)
  · intro seq lbl hle
    have hmax : observed_max [(seq, lbl)] = seq.length := by
      simp [observed_max]
    have htl : min (observed_max [(seq, lbl)]) block_size = seq.length := by
      rw [hmax]
      omega
    have hrow : assemble_row (min (observed_max [(seq, lbl)]) block_size) seq
        = seq := assemble_row_of_eq htl.symm
    simp [collate_fn, hrow]

/-- C10 witness: a two-item batch where the second item exactly fits the
target length, and a singleton batch passed through unchanged. -/
theorem collate_exact_fit_identity_witness :
    ([[1, 2, 0], [4, 5, 6]] : List (List Int))[1]? = some [4, 5, 6] ∧
    collate_fn 7 [([1, 2, 3], 0)] = some ([[1, 2, 3]], [0]) :=
  ⟨(collate_exact_fit_identity 3).1 [([1, 2], 0), ([4, 5, 6], 1)]
      [[1, 2, 0], [4, 5, 6]] [0, 1] 1 [4, 5, 6] 1
      (by decide) (by decide) (by decide),
   (collate_exact_fit_identity 7).2 [1, 2, 3] 0 (by decide)⟩

/-! ## Helper lemmas: step protocol and loop -/

/-- The statement trace of one inner-loop iteration is the same every
step: the source order of `Trainer.run`'s loop body. -/
lemma step_body_trace (mi : Option Nat) (lv : Int) (s : LoopState) :
    (step_body mi lv s).2.1 =
      [.pullBatch, .deviceMove, .forwardLoss, .zeroGrad, .backward,
       .clipGradNorm, .optStep, .recordLoss, .fireCallback "on_batch_end",
       .incrIterNum, .updateTiming, .termCheck] := rfl

/-- One step increments `iter_num` by exactly one. -/
lemma step_body_iter_num (mi : Option Nat) (lv : Int) (s : LoopState) :
    (step_body mi lv s).1.iter_num = s.iter_num + 1 := rfl

/-- One step pulls exactly one batch. -/
lemma step_body_count_pull (mi : Option Nat) (lv : Int) (s : LoopState) :
    ((step_body mi lv s).2.1).count StepEv.pullBatch = 1 := by
  rw [step_body_trace]
  rfl

/-- The break decision of one step under a configured cap. -/
lemma step_body_stop (k : Nat) (lv : Int) (s : LoopState) :
    (step_body (some k) lv s).2.2 = decide (s.iter_num + 1 ≥ k) := rfl

/-- Unfolding `run_pass` on a non-empty pass under a configured cap,
with the break condition made explicit. -/
lemma run_pass_cons (k : Nat) (l : Int) (ls : List Int) (s : LoopState) :
    run_pass (some k) (l :: ls) s =
      if s.iter_num + 1 ≥ k then
        ((step_body (some k) l s).1, (step_body (some k) l s).2.1, true)
      else
        ((run_pass (some k) ls (step_body (some k) l s).1).1,
         (step_body (some k) l s).2.1 ++
           (run_pass (some k) ls (step_body (some k) l s).1).2.1,
         (run_pass (some k) ls (step_body (some k) l s).1).2.2) := by
  simp only [run_pass, step_body_stop]
  by_cases h : s.iter_num + 1 ≥ k <;> simp [h]

/-- Unfolding one iteration of the outer `while True` loop. -/
lemma run_outer_succ (mi : Option Nat) (losses : List Int) (fuel : Nat)
    (s : LoopState) :
    run_outer mi losses (fuel + 1) s =
      if (run_pass mi losses s).2.2 = true then
        some ((run_pass mi losses s).1, (run_pass mi losses s).2.1)
      else if stop_cond mi (run_pass mi losses s).1.iter_num = true then
        some ((run_pass mi losses s).1, (run_pass mi losses s).2.1)
      else
        match run_outer mi losses fuel (run_pass mi losses s).1 with
        | none => none
        | some r2 => some (r2.1, (run_pass mi losses s).2.1 ++ r2.2) := rfl

/-- Behaviour of one inner pass under a configured cap, started strictly
below the cap: the counter rises to `min (start + pass length) k`, one
batch is pulled per counted step, and the pass breaks exactly when the
cap is reached inside it. -/
lemma run_pass_spec (k : Nat) (ls : List Int) (s : LoopState)
    (hlt : s.iter_num < k) :
    (run_pass (some k) ls s).1.iter_num = min (s.iter_num + ls.length) k ∧
    ((run_pass (some k) ls s).2.1).count StepEv.pullBatch
      = min (s.iter_num + ls.length) k - s.iter_num ∧
    (run_pass (some k) ls s).2.2 = decide (s.iter_num + ls.length ≥ k) := by
  induction ls generalizing s with
  | nil =>
      refine ⟨?_, ?_, ?_⟩
      · show s.iter_num = min (s.iter_num + ([] : List Int).length) k
        simp only [List.length_nil]
        omega
      · show (([] : List StepEv)).count StepEv.pullBatch
          = min (s.iter_num + ([] : List Int).length) k - s.iter_num
        simp only [List.count_nil, List.length_nil]
        omega
      · show false = decide (s.iter_num + ([] : List Int).length ≥ k)
        simp only [List.length_nil, Nat.add_zero]
        rw [eq_comm, decide_eq_false_iff_not]
        omega
  | cons l ls ih =>
      rw [run_pass_cons]
      by_cases hk : s.iter_num + 1 ≥ k
      · rw [if_pos hk]
        refine ⟨?_, ?_, ?_⟩
        · show (step_body (some k) l s).1.iter_num = _
          rw [step_body_iter_num]
          simp only [List.length_cons]
          omega
        · show ((step_body (some k) l s).2.1).count StepEv.pullBatch = _
          rw [step_body_count_pull]
          simp only [List.length_cons]
          omega
        · show true = _
          rw [eq_comm, decide_eq_true_eq]
          simp only [List.length_cons]
          omega
      · rw [if_neg hk]
        have hk2 : (step_body (some k) l s).1.iter_num < k := by
          rw [step_body_iter_num]
          omega
        obtain ⟨ih1, ih2, ih3⟩ := ih _ hk2
        rw [step_body_iter_num] at ih1 ih2 ih3
        refine ⟨?_, ?_, ?_⟩
        · show (run_pass (some k) ls (step_body (some k) l s).1).1.iter_num = _
          rw [ih1]
          simp only [List.length_cons]
          omega
        · show ((step_body (some k) l s).2.1 ++
              (run_pass (some k) ls (step_body (some k) l s).1).2.1).count
              StepEv.pullBatch = _
          rw [List.count_append, step_body_count_pull, ih2]
          simp only [List.length_cons]
          omega
        · show (run_pass (some k) ls (step_body (some k) l s).1).2.2 = _
          rw [ih3]
          simp only [List.length_cons]
          have harith : s.iter_num + 1 + ls.length
              = s.iter_num + (ls.length + 1) := by omega
          rw [harith]

/-- Behaviour of the outer loop under a configured cap, started strictly
below the cap with a non-empty pass and enough fuel: it returns with the
counter at the cap, having pulled exactly the missing number of batches. -/
lemma run_outer_spec (k : Nat) (losses : List Int) (hne : losses ≠ [])
    (fuel : Nat) (s : LoopState) (hlt : s.iter_num < k)
    (hfuel : k - s.iter_num ≤ fuel) :
    ∃ r, run_outer (some k) losses fuel s = some r ∧
      r.1.iter_num = k ∧
      (r.2).count StepEv.pullBatch = k - s.iter_num := by
  have hlen : 1 ≤ losses.length := by
    cases losses with
    | nil => exact absurd rfl hne
    | cons a as => simp
  induction fuel generalizing s with
  | zero => exact absurd hfuel (by omega)
  | succ fuel ih =>
      obtain ⟨h1, h2, h3⟩ := run_pass_spec k losses s hlt
      rw [run_outer_succ, h3]
      by_cases hend : s.iter_num + losses.length ≥ k
      · rw [if_pos (decide_eq_true hend)]
        refine ⟨_, rfl, ?_, ?_⟩
        · show (run_pass (some k) losses s).1.iter_num = k
          rw [h1]
          omega
        · show ((run_pass (some k) losses s).2.1).count StepEv.pullBatch
            = k - s.iter_num
          rw [h2]
          omega
      · rw [if_neg (by simp [hend])]
        have hsc : stop_cond (some k)
            (run_pass (some k) losses s).1.iter_num = false := by
          rw [h1]
          simp only [stop_cond, decide_eq_false_iff_not]
          omega
        rw [hsc, if_neg (by simp)]
        have hlt2 : (run_pass (some k) losses s).1.iter_num < k := by
          rw [h1]
          omega
        have hfuel2 : k - (run_pass (some k) losses s).1.iter_num ≤ fuel := by
          rw [h1]
          omega
        obtain ⟨r, hr, hr1, hr2⟩ := ih _ hlt2 hfuel2
        rw [hr]
        refine ⟨_, rfl, hr1, ?_⟩
        show ((run_pass (some k) losses s).2.1 ++ r.2).count StepEv.pullBatch
          = k - s.iter_num
        rw [List.count_append, h2, hr2, h1]
        omega

/-! ## Claim theorems: step protocol ordering -/

/-- C2 counterexample: the claim places `on_batch_end` after the
iteration-counter update, but in the source loop body the callback fires
strictly before `iter_num += 1`; witnessed on a concrete step. -/
theorem on_batch_end_after_increment_counterexample :
    ¬ ((step_body (some 5) 3 { iter_num := 0, loss := 0 }).2.1.indexOf
         StepEv.incrIterNum <
       (step_body (some 5) 3 { iter_num := 0, loss := 0 }).2.1.indexOf
         (StepEv.fireCallback "on_batch_end")) := by
  decide

/-- C2 amended: in every execution of the per-step protocol,
`on_batch_end` fires after the optimizer step and after the loss record,
but before the iteration-counter update, which itself precedes the
termination check. -/
theorem on_batch_end_fires_before_iter_increment
    (mi : Option Nat) (lv : Int) (s : LoopState) :
    (step_body mi lv s).2.1.indexOf StepEv.optStep <
      (step_body mi lv s).2.1.indexOf (StepEv.fireCallback "on_batch_end") ∧
    (step_body mi lv s).2.1.indexOf StepEv.recordLoss <
      (step_body mi lv s).2.1.indexOf (StepEv.fireCallback "on_batch_end") ∧
    (step_body mi lv s).2.1.indexOf (StepEv.fireCallback "on_batch_end") <
      (step_body mi lv s).2.1.indexOf StepEv.incrIterNum ∧
    (step_body mi lv s).2.1.indexOf StepEv.incrIterNum <
      (step_body mi lv s).2.1.indexOf StepEv.termCheck := by
  rw [step_body_trace]
  decide

/-! ## Claim theorems: termination -/

/-- C3: with a configured cap `K ≥ 1` (the configuration surface requires
a positive cap), a non-empty pass, and fuel for at least `K` passes,
`run` returns after exactly `K` step-protocol invocations (batch pulls)
with `iter_num = K`. -/
theorem run_stops_at_max_iters (k : Nat) (losses : List Int) (fuel : Nat)
    (hk : 0 < k) (hne : losses ≠ []) (hfuel : k ≤ fuel) :
    ∃ r, run (some k) losses fuel = some r ∧
      (r.1).iter_num = k ∧ (r.2).count StepEv.pullBatch = k := by
  obtain ⟨r, hr, h1, h2⟩ :=
    run_outer_spec k losses hne fuel { iter_num := 0, loss := 0 }
      hk (by omega)
  exact ⟨r, hr, h1, by simpa using h2⟩

/-- C3 witness: `max_iters = 2` over a one-batch pass with fuel 3. -/
theorem run_stops_at_max_iters_witness :
    0 < 2 ∧ ([5] : List Int) ≠ [] ∧ 2 ≤ 3 ∧
    ∃ r, run (some 2) [5] 3 = some r ∧
      (r.1).iter_num = 2 ∧ (r.2).count StepEv.pullBatch = 2 :=
  ⟨by decide, by decide, by decide,
   run_stops_at_max_iters 2 [5] 3 (by decide) (by decide) (by decide)⟩

/-- C4 counterexample: with `max_iters = 0` and a non-empty dataset the
source loop still pulls a first batch and runs one full step (the cap is
only checked after the step), returning with `iter_num = 1` and one
batch pull — not zero. -/
theorem max_iters_zero_counterexample :
    (run (some 0) [5] 1).map
      (fun r => ((r.1).iter_num, (r.2).count StepEv.pullBatch))
      = some (1, 1) := by
  decide

/-- C4 amended: with `max_iters = 0` configured and a non-empty pass,
`run` executes exactly one step protocol (one batch pull, one full
optimization step) and then returns with `iter_num = 1`: the cap is
checked only after each step. -/
theorem max_iters_zero_runs_one_step (losses : List Int) (fuel : Nat)
    (hne : losses ≠ []) (hfuel : 0 < fuel) :
    ∃ r, run (some 0) losses fuel = some r ∧
      (r.1).iter_num = 1 ∧ (r.2).count StepEv.pullBatch = 1 := by
  obtain ⟨l, ls, rfl⟩ := List.exists_cons_of_ne_nil hne
  obtain ⟨f, rfl⟩ :=
    Nat.exists_eq_succ_of_ne_zero (Nat.pos_iff_ne_zero.mp hfuel)
  unfold run
  rw [run_outer_succ]
  have hps : run_pass (some 0) (l :: ls) { iter_num := 0, loss := 0 }
      = ((step_body (some 0) l { iter_num := 0, loss := 0 }).1,
         (step_body (some 0) l { iter_num := 0, loss := 0 }).2.1, true) := by
    rw [run_pass_cons, if_pos (by omega)]
  rw [hps, if_pos rfl]
  refine ⟨_, rfl, rfl, ?_⟩
  show ((step_body (some 0) l { iter_num := 0, loss := 0 }).2.1).count
    StepEv.pullBatch = 1
  exact step_body_count_pull _ _ _

/-- C4 amended witness: one-batch pass, fuel 1. -/
theorem max_iters_zero_runs_one_step_witness :
    ([5] : List Int) ≠ [] ∧ 0 < 1 ∧
    ∃ r, run (some 0) [5] 1 = some r ∧
      (r.1).iter_num = 1 ∧ (r.2).count StepEv.pullBatch = 1 :=
  ⟨by decide, by decide,
   max_iters_zero_runs_one_step [5] 1 (by decide) (by decide)⟩

/-! ## Claim theorems: callbacks and construction -/

/-- C8: after `set_callback` twice for the same event with handlers `f`
then `g`, a `trigger_callbacks` for that event invokes exactly `[g]`:
`set_callback` replaces the whole handler list with a singleton. -/
theorem set_callback_replaces (H : Type) (cbs : Callbacks H)
    (ev : String) (f g : H) :
    trigger_callbacks (set_callback (set_callback cbs ev f) ev g) ev
      = [g] := by
  simp [trigger_callbacks, set_callback]

/-- A configuration with a non-positive batch size. -/
def badConfig : TrainerConfig :=
  { device := "cpu", num_workers := 4, max_iters := none, batch_size := 0,
    learning_rate := 3, betas := (9, 95), weight_decay := 1,
    grad_norm_clip := 1 }

/-- C9 counterexample: constructing the trainer with `batch_size = 0`
succeeds — `__init__` performs no validation and raises no
`ConfigurationError`. -/
theorem init_accepts_nonpositive_batch_size :
    init badConfig false =
      Except.ok
        { config := badConfig, device := "cpu", iter_num := 0,
          iter_time := 0, iter_dt := 0 } := rfl

/-- C9 amended: construction never fails, whatever the configuration —
no configuration value is validated in `__init__`; an invalid batch size
is stored as-is and can only surface later. -/
theorem init_never_fails (config : TrainerConfig) (cuda_available : Bool) :
    ∃ t, init config cuda_available = Except.ok t :=
  ⟨_, rfl⟩

end Trainer
